import Mathlib

/-!
# Verification of the `cpumembusy` adaptive resource engine

Shallow embedding of the Go program `cpumembusy` (files `main.go`,
`memory.go`/`cpu.go`) and proofs of the spec's claims about it.

Modelling conventions:
* Go `uint64` counters are modelled as `ℕ`; `int` values as `ℤ`;
  `float64` percentages and probabilities as `ℚ`.
* The CPU intensity step multiplies a counter by the `float64` literals
  `1.001` / `0.999`; there the binary64 representation error is observable
  (the double nearest `1.001` lies below it), so that arithmetic is
  modelled bit-faithfully: `roundF` below rounds a rational to the nearest
  binary64-representable value (ties to even), and the step composes
  `roundF` around the conversion, the literal and the product exactly as
  the hardware does.
* `uint64(f)` / `int(f)` conversion of a `float64` truncates toward zero;
  on the non-negative values arising here this is `Nat.floor` / `Int.floor`,
  and `qtrunc` below models the signed truncation.
* `rand.Float64()` draws are passed in as explicit `ℚ` parameters, so every
  theorem quantifying over them holds for every value of the random source.
* The memory balloon `buffer [][]byte` is modelled by its block count `ℕ`:
  the source only ever appends 1 MiB blocks, truncates from the tail and
  reads `len(mc.buffer)`, never the block contents.
-/

namespace CpuMemBusy

/-- Constants from `main.go`: `defaultPeakUsage = 40`. -/
def defaultPeakUsage : ℤ := 40

/-- Constants from `main.go`: `hardPeakLimit = 70` (used in float comparisons). -/
def hardPeakLimit : ℚ := 70

/-- Constants from `main.go`: `minPeakUsage = 5`. -/
def minPeakUsage : ℤ := 5

/-- Truncation toward zero of a rational, as Go's `int(f)` / `uint64(f)`
conversion of a `float64` behaves on in-range values. -/
def qtrunc (x : ℚ) : ℤ := if x < 0 then -⌊-x⌋ else ⌊x⌋

/-- `getPeakUsage` from `main.go`: reads the `P`/`p` environment variable and
parses it with `strconv.Atoi`. The environment lookup and parse are modelled
by an `Option ℤ` argument: `none` stands for a missing variable or a value
`Atoi` rejects, `some p` for a successfully parsed integer. -/
def getPeakUsage (env : Option ℤ) : ℤ :=
  match env with
  | none => defaultPeakUsage
  | some peakUsage =>
    if peakUsage < 1 ∨ 100 < peakUsage then defaultPeakUsage
    else if peakUsage < minPeakUsage then minPeakUsage
    else peakUsage

/-- `isNightTime` from `main.go`: true iff the UTC hour is in [16, 20).
The wall-clock reading `time.Now().UTC().Hour()` is passed as the argument. -/
def isNightTime (hour : ℕ) : Bool := 16 ≤ hour && hour < 20

/-- `calculateExpectedUsage` from `main.go`. The source calls `isNightTime()`
internally; the time dependence is passed as the `night` flag. -/
def calculateExpectedUsage (userPeakUsage : ℤ) (night : Bool) : ℚ :=
  let expectedUsage : ℚ :=
    if night then (userPeakUsage : ℚ) else (userPeakUsage : ℚ) * (8 / 10)
  if hardPeakLimit < expectedUsage then hardPeakLimit else expectedUsage

/-- `abs` from `main.go` (absolute value on `float64`). -/
def fabs (x : ℚ) : ℚ := if x < 0 then -x else x

/-- `calculateAdjustProbability` from `main.go`. -/
def calculateAdjustProbability (diff : ℚ) : ℚ :=
  if 5 < diff then 9 / 10
  else if 2 ≤ diff then 7 / 10
  else 6 / 10

/-- `calculateDirectionProbability` from `main.go`. The `expectedUsage`
argument is accepted (as in the source) but unused. -/
def calculateDirectionProbability (diff expectedUsage : ℚ) : ℚ :=
  let absDiff := fabs diff
  if diff < 0 then
    if 50 < absDiff then 9 / 10
    else if 20 < absDiff then 8 / 10
    else if 10 < absDiff then 7 / 10
    else if 5 < absDiff then 65 / 100
    else if 2 ≤ absDiff then 6 / 10
    else 55 / 100
  else
    if 50 < absDiff then 1 / 10
    else if 20 < absDiff then 2 / 10
    else if 10 < absDiff then 3 / 10
    else if 5 < absDiff then 35 / 100
    else if 2 ≤ absDiff then 4 / 10
    else 45 / 100

/-- `shouldAdjust` from `main.go`: `rand.Float64() < probability`, with the
random draw passed explicitly. -/
def shouldAdjust (probability r : ℚ) : Bool := r < probability

/-- `updatePeakUsage` from `main.go`: draws the new drifting ceiling from
`[0.2 * peakUsageOrigin, peakUsageOrigin]`. `r` is the `rand.Float64()` draw;
the function returns the new `peakUsage` value stored under the lock. -/
def updatePeakUsage (peakUsageOrigin : ℤ) (r : ℚ) : ℤ :=
  let minValue : ℚ := (peakUsageOrigin : ℚ) * (2 / 10)
  let maxValue : ℚ := (peakUsageOrigin : ℚ)
  let newValue : ℚ := minValue + r * (maxValue - minValue)
  let p : ℤ := qtrunc newValue
  let p : ℤ := if p < qtrunc minValue then qtrunc minValue else p
  if p < minPeakUsage then minPeakUsage else p

/-! ## CPU load engine (`cpu.go`) -/

/-- `initCount = 10000` from `cpu.go`: initial value of `cc.count`. -/
def initCount : ℕ := 10000

/-- Round a rational to the nearest integer, ties to even — the rounding
applied to the scaled significand of every IEEE 754 operation result. -/
def rne (y : ℚ) : ℤ :=
  let f := ⌊y⌋
  let frac := y - (f : ℚ)
  if frac < 1 / 2 then f
  else if 1 / 2 < frac then f + 1
  else if f % 2 = 0 then f else f + 1

/-- Round a non-negative rational to the nearest binary64-representable
value (round to nearest, ties to even): the 53-bit significand is chosen at
the exponent `Int.log 2 x` of the input. The exponent range is left
unbounded, which agrees with binary64 on every value this program's
arithmetic produces (all lie far inside the normal range — no overflow, no
subnormals). -/
def roundF (x : ℚ) : ℚ :=
  if x ≤ 0 then 0
  else (rne (x * (2 : ℚ) ^ ((52 : ℤ) - Int.log 2 x)) : ℚ)
    * (2 : ℚ) ^ (Int.log 2 x - 52)

/-- `AdjustCountRandom` from `cpu.go`, as a function of the current stored
`cc.count`. Returns the source's result triple `(success, direction,
newCount)`; the third component is also the value stored back into
`cc.count`. `uint64(float64(count) * 1.001)` is modelled step by step:
`roundF (count : ℚ)` is the `uint64 → float64` conversion, `roundF
(1001 / 1000)` the compile-time `float64` literal `1.001`, the outer
`roundF` the rounding of the `float64` product, and `Nat.floor` the
truncating `uint64` conversion; likewise for `0.999`, whose branch carries
the source's floor clamp to 1. -/
def AdjustCountRandom (shouldIncrease : Bool) (count : ℕ) : Bool × Bool × ℕ :=
  let newCount : ℕ :=
    if shouldIncrease then
      ⌊roundF (roundF (count : ℚ) * roundF (1001 / 1000))⌋₊
    else
      max 1 ⌊roundF (roundF (count : ℚ) * roundF (999 / 1000))⌋₊
  (true, shouldIncrease, newCount)

/-- The stored `cc.count` after one `AdjustCountRandom` call. -/
def countStep (count : ℕ) (shouldIncrease : Bool) : ℕ :=
  (AdjustCountRandom shouldIncrease count).2.2

/-- The stored `cc.count` after a finite sequence of `AdjustCountRandom`
calls, earliest call first. -/
def runCounts (count : ℕ) (dirs : List Bool) : ℕ :=
  dirs.foldl countStep count

/-! ## Memory load engine (`memory.go`) -/

/-- The mutable fields of `MemoryController`: `buffer` is the number of 1 MiB
blocks held (the source reads only `len(mc.buffer)` and every appended block
is exactly `blockSize` bytes), `totalMemory` the configured host total. -/
structure MemoryController where
  buffer : ℕ
  totalMemory : ℕ
  deriving Repr, DecidableEq

/-- `blockSize` from `memory.go`: 1 MiB. -/
def blockSize : ℕ := 1024 * 1024

/-- `getCurrentProgramMemory` from `memory.go`:
`uint64(len(mc.buffer)) * blockSize`. -/
def getCurrentProgramMemory (mc : MemoryController) : ℕ :=
  mc.buffer * blockSize

/-- `GetCurrentMemory` from `memory.go` (the locked public query). -/
def GetCurrentMemory (mc : MemoryController) : ℕ :=
  getCurrentProgramMemory mc

/-- `allocateMemory` from `memory.go`: appends `ceil(bytes / blockSize)`
blocks of 1 MiB. -/
def allocateMemory (mc : MemoryController) (bytes : ℕ) : MemoryController :=
  { mc with buffer := mc.buffer + (bytes + blockSize - 1) / blockSize }

/-- `releaseMemory` from `memory.go`: truncates `ceil(bytes / blockSize)`
blocks from the tail, capped at the blocks present. -/
def releaseMemory (mc : MemoryController) (bytes : ℕ) : MemoryController :=
  let blocks := min ((bytes + blockSize - 1) / blockSize) mc.buffer
  { mc with buffer := mc.buffer - blocks }

/-- `adjustTo` from `memory.go`: grows or shrinks the balloon toward
`targetBytes` and returns the resulting size together with the new state. -/
def adjustTo (mc : MemoryController) (targetBytes : ℕ) : ℕ × MemoryController :=
  let currentBytes := getCurrentProgramMemory mc
  let mc' :=
    if currentBytes < targetBytes then allocateMemory mc (targetBytes - currentBytes)
    else if targetBytes < currentBytes then releaseMemory mc (currentBytes - targetBytes)
    else mc
  (getCurrentProgramMemory mc', mc')

/-- `AdjustMemoryRandom` from `memory.go`: one balloon step of
`totalMemory / 1000` bytes (0.1 %, `uint64` division) in the given
direction. Returns the source's result triple `(success, direction,
actualBytes)` paired with the new controller state. -/
def AdjustMemoryRandom (mc : MemoryController) (shouldIncrease : Bool) :
    (Bool × Bool × ℕ) × MemoryController :=
  let currentProgramBytes := getCurrentProgramMemory mc
  let adjustBytes := mc.totalMemory / 1000
  let targetProgramBytes : ℕ :=
    if shouldIncrease then currentProgramBytes + adjustBytes
    else if adjustBytes < currentProgramBytes then currentProgramBytes - adjustBytes
    else 0
  let res := adjustTo mc targetProgramBytes
  ((true, shouldIncrease, res.1), res.2)

/-- The controller state after one `AdjustMemoryRandom` call. -/
def memStep (mc : MemoryController) (shouldIncrease : Bool) : MemoryController :=
  (AdjustMemoryRandom mc shouldIncrease).2

/-- The controller state after a finite sequence of `AdjustMemoryRandom`
calls, earliest call first. -/
def runMemory (mc : MemoryController) (dirs : List Bool) : MemoryController :=
  dirs.foldl memStep mc

/-! ## Adaptive controller passes (`main.go`) -/

/-- The decision a controller pass emits: forced decrease, skip, or an
adjustment in the drawn direction. -/
inductive AdjustDecision where
  | forced : AdjustDecision
  | skip : AdjustDecision
  | adjust : Bool → AdjustDecision
  deriving Repr, DecidableEq

/-- `adjustCPU` from `main.go`, as a function of the measured CPU percentage,
the expected usage, the two `rand.Float64()` draws (`r1` for the
adjust-or-skip stage, `r2` for the direction stage) and the stored CPU
intensity. Returns the emitted decision and the intensity after the pass. -/
def adjustCPU (currentPercent expectedUsage r1 r2 : ℚ) (count : ℕ) :
    AdjustDecision × ℕ :=
  if hardPeakLimit < currentPercent then
    (AdjustDecision.forced, (AdjustCountRandom false count).2.2)
  else
    let diff := currentPercent - expectedUsage
    let adjustProb := calculateAdjustProbability (fabs diff)
    if shouldAdjust adjustProb r1 then
      let increaseProb := calculateDirectionProbability diff expectedUsage
      let shouldIncrease : Bool := r2 < increaseProb
      (AdjustDecision.adjust shouldIncrease, (AdjustCountRandom shouldIncrease count).2.2)
    else
      (AdjustDecision.skip, count)

/-- `adjustMemory` from `main.go`, analogous to `adjustCPU` but driving the
memory controller. -/
def adjustMemory (currentPercent expectedUsage r1 r2 : ℚ) (mc : MemoryController) :
    AdjustDecision × MemoryController :=
  if hardPeakLimit < currentPercent then
    (AdjustDecision.forced, (AdjustMemoryRandom mc false).2)
  else
    let diff := currentPercent - expectedUsage
    let adjustProb := calculateAdjustProbability (fabs diff)
    if shouldAdjust adjustProb r1 then
      let increaseProb := calculateDirectionProbability diff expectedUsage
      let shouldIncrease : Bool := r2 < increaseProb
      (AdjustDecision.adjust shouldIncrease, (AdjustMemoryRandom mc shouldIncrease).2)
    else
      (AdjustDecision.skip, mc)

/-! ## Spec-side probability tables (for the refinement claim C8) -/

/-- The adjust-or-skip probability table exactly as the spec words it:
a step function of the magnitude `m = |current − target|`:
`> 5 → 0.90`, `[2,5] → 0.70`, otherwise `0.60`. -/
def specAdjustProbability (m : ℚ) : ℚ :=
  if 5 < m then 9 / 10
  else if 2 ≤ m ∧ m ≤ 5 then 7 / 10
  else 6 / 10

/-- The increase-probability table exactly as the spec words it, as a
function of the signed difference `diff = current − target`. -/
def specDirectionProbability (diff : ℚ) : ℚ :=
  if diff < 0 then
    if 50 < |diff| then 9 / 10
    else if 20 < |diff| then 8 / 10
    else if 10 < |diff| then 7 / 10
    else if 5 < |diff| then 65 / 100
    else if 2 ≤ |diff| then 6 / 10
    else 55 / 100
  else
    if 50 < |diff| then 1 / 10
    else if 20 < |diff| then 2 / 10
    else if 10 < |diff| then 3 / 10
    else if 5 < |diff| then 35 / 100
    else if 2 ≤ |diff| then 4 / 10
    else 45 / 100

/-! ## Helper lemmas -/

lemma fabs_eq_abs (x : ℚ) : fabs x = |x| := by
  unfold fabs
  rcases lt_or_le x 0 with h | h
  · rw [if_pos h, abs_of_neg h]
  · rw [if_neg (not_lt.mpr h), abs_of_nonneg h]

lemma intLog_eval {x : ℚ} {e : ℤ} (hx : 0 < x)
    (h1 : (2 : ℚ) ^ e ≤ x) (h2 : x < (2 : ℚ) ^ (e + 1)) : Int.log 2 x = e := by
  have hcast : ((2 : ℕ) : ℚ) = (2 : ℚ) := by norm_num
  have hle : e ≤ Int.log 2 x := by
    rw [← Int.zpow_le_iff_le_log one_lt_two hx, hcast]
    exact h1
  have hlt : Int.log 2 x < e + 1 := by
    rw [← Int.lt_zpow_iff_log_lt one_lt_two hx, hcast]
    exact h2
  omega

lemma rne_ge_floor (y : ℚ) : ⌊y⌋ ≤ rne y := by
  unfold rne
  dsimp only
  split_ifs <;> omega

lemma one_le_roundF (x : ℚ) (hx : 1 ≤ x) : 1 ≤ roundF x := by
  have hx0 : ¬ x ≤ 0 := by linarith
  unfold roundF
  rw [if_neg hx0]
  have he : 0 ≤ Int.log 2 x := by
    rw [Int.log_of_one_le_right 2 hx]
    exact Int.natCast_nonneg _
  have hle : (2 : ℚ) ^ Int.log 2 x ≤ x :=
    Int.zpow_log_le_self (by norm_num) (by linarith)
  have hy : (2 : ℚ) ^ (52 : ℤ) ≤ x * (2 : ℚ) ^ ((52 : ℤ) - Int.log 2 x) := by
    calc (2 : ℚ) ^ (52 : ℤ)
        = (2 : ℚ) ^ Int.log 2 x * (2 : ℚ) ^ ((52 : ℤ) - Int.log 2 x) := by
          rw [← zpow_add₀ (by norm_num : (2 : ℚ) ≠ 0)]
          ring_nf
    _ ≤ x * (2 : ℚ) ^ ((52 : ℤ) - Int.log 2 x) :=
          mul_le_mul_of_nonneg_right hle (zpow_nonneg (by norm_num) _)
  have hfl : (2 : ℤ) ^ (52 : ℕ) ≤ ⌊x * (2 : ℚ) ^ ((52 : ℤ) - Int.log 2 x)⌋ := by
    rw [Int.le_floor]
    calc ((2 : ℤ) ^ (52 : ℕ) : ℚ) = (2 : ℚ) ^ (52 : ℤ) := by norm_num
    _ ≤ _ := hy
  have hrne : (2 : ℤ) ^ (52 : ℕ) ≤ rne (x * (2 : ℚ) ^ ((52 : ℤ) - Int.log 2 x)) :=
    le_trans hfl (rne_ge_floor _)
  calc (1 : ℚ) = (2 : ℚ) ^ (0 : ℤ) := by norm_num
  _ ≤ (2 : ℚ) ^ Int.log 2 x := one_le_zpow₀ (by norm_num) he
  _ = (2 : ℚ) ^ (52 : ℤ) * (2 : ℚ) ^ (Int.log 2 x - 52) := by
      rw [← zpow_add₀ (by norm_num : (2 : ℚ) ≠ 0)]
      ring_nf
  _ ≤ (rne (x * (2 : ℚ) ^ ((52 : ℤ) - Int.log 2 x)) : ℚ)
        * (2 : ℚ) ^ (Int.log 2 x - 52) := by
      apply mul_le_mul_of_nonneg_right _ (zpow_nonneg (by norm_num) _)
      calc ((2 : ℚ) ^ (52 : ℤ)) = ((2 : ℤ) ^ (52 : ℕ) : ℚ) := by norm_num
      _ ≤ _ := by exact_mod_cast hrne

lemma roundF_const_1001 : roundF (1001 / 1000) = 4508103226997866 / 2 ^ 52 := by
  have he : Int.log 2 ((1001 : ℚ) / 1000) = 0 :=
    intLog_eval (by norm_num) (by norm_num) (by norm_num)
  unfold roundF rne
  rw [if_neg (by norm_num), he]
  norm_num

lemma roundF_const_999 : roundF (999 / 1000) = 8998192055486251 / 2 ^ 53 := by
  have he : Int.log 2 ((999 : ℚ) / 1000) = -1 :=
    intLog_eval (by norm_num) (by norm_num) (by norm_num)
  unfold roundF rne
  rw [if_neg (by norm_num), he]
  norm_num

lemma roundF_10000 : roundF (10000 : ℚ) = 10000 := by
  have he : Int.log 2 ((10000 : ℚ)) = 13 :=
    intLog_eval (by norm_num) (by norm_num) (by norm_num)
  unfold roundF rne
  rw [if_neg (by norm_num), he]
  norm_num

lemma roundF_one : roundF (1 : ℚ) = 1 := by
  have he : Int.log 2 ((1 : ℚ)) = 0 :=
    intLog_eval (by norm_num) (by norm_num) (by norm_num)
  unfold roundF rne
  rw [if_neg (by norm_num), he]
  norm_num

lemma roundF_prod_10000 :
    roundF (10000 * (4508103226997866 / 2 ^ 52)) = 5503055697018879 / 2 ^ 39 := by
  have he : Int.log 2 ((10000 : ℚ) * (4508103226997866 / 2 ^ 52)) = 13 :=
    intLog_eval (by norm_num) (by norm_num) (by norm_num)
  unfold roundF rne
  rw [if_neg (by norm_num), he]
  norm_num

lemma roundF_prod_one :
    roundF (1 * (8998192055486251 / 2 ^ 53)) = 8998192055486251 / 2 ^ 53 := by
  have he : Int.log 2 ((1 : ℚ) * (8998192055486251 / 2 ^ 53)) = -1 :=
    intLog_eval (by norm_num) (by norm_num) (by norm_num)
  unfold roundF rne
  rw [if_neg (by norm_num), he]
  norm_num

lemma step_true_10000 : (AdjustCountRandom true 10000).2.2 = 10009 := by
  unfold AdjustCountRandom
  simp only [if_true, Nat.cast_ofNat]
  rw [roundF_10000, roundF_const_1001, roundF_prod_10000]
  rw [Nat.floor_eq_iff (by positivity)]
  norm_num

lemma step_false_one : (AdjustCountRandom false 1).2.2 = 1 := by
  unfold AdjustCountRandom
  simp only [Bool.false_eq_true, if_false, Nat.cast_one]
  rw [roundF_one, roundF_const_999, roundF_prod_one]
  rw [show ⌊(8998192055486251 : ℚ) / 2 ^ 53⌋₊ = 0 by
    rw [Nat.floor_eq_iff (by positivity)]
    norm_num]
  decide

/-! ## Claim theorems -/

/-- C1: in every controller pass over a resource, if the measured usage
strictly exceeds the hard safety ceiling 70, `adjustCPU` issues
`AdjustCountRandom(false)` and `adjustMemory` issues
`AdjustMemoryRandom(false)`, each reporting a forced decision, for every
expected-usage value and every value of both random draws. -/
theorem forced_decrease_above_hard_limit
    (cpuPercent memPercent expectedUsage r1c r2c r1m r2m : ℚ)
    (count : ℕ) (mc : MemoryController)
    (hcpu : hardPeakLimit < cpuPercent) (hmem : hardPeakLimit < memPercent) :
    adjustCPU cpuPercent expectedUsage r1c r2c count
      = (AdjustDecision.forced, (AdjustCountRandom false count).2.2)
    ∧ adjustMemory memPercent expectedUsage r1m r2m mc
      = (AdjustDecision.forced, (AdjustMemoryRandom mc false).2) := by
  unfold adjustCPU adjustMemory
  rw [if_pos hcpu, if_pos hmem]
  exact ⟨rfl, rfl⟩

/-- C1 witness: at measured CPU 75 % and memory 80 % (both above 70) the
forced-decrease conclusion holds concretely. -/
theorem forced_decrease_above_hard_limit_witness :
    hardPeakLimit < (75 : ℚ) ∧ hardPeakLimit < (80 : ℚ)
    ∧ adjustCPU 75 40 0 0 initCount
        = (AdjustDecision.forced, (AdjustCountRandom false initCount).2.2)
    ∧ adjustMemory 80 40 0 0 ⟨0, 0⟩
        = (AdjustDecision.forced, (AdjustMemoryRandom ⟨0, 0⟩ false).2) := by
  have h1 : hardPeakLimit < (75 : ℚ) := by norm_num [hardPeakLimit]
  have h2 : hardPeakLimit < (80 : ℚ) := by norm_num [hardPeakLimit]
  have h := forced_decrease_above_hard_limit 75 80 40 0 0 0 0 initCount ⟨0, 0⟩ h1 h2
  exact ⟨h1, h2, h.1, h.2⟩

/-- C2: `calculateExpectedUsage` is a function of (ceiling, night-flag)
returning the ceiling when the night flag is set and `ceiling × 0.8`
otherwise, clamped to at most 70; in particular `(40, night) ↦ 40` and
`(90, day) ↦ 70`. -/
theorem calculateExpectedUsage_spec :
    (∀ (u : ℤ) (night : Bool),
      calculateExpectedUsage u night
        = min (if night then (u : ℚ) else (u : ℚ) * (8 / 10)) 70)
    ∧ calculateExpectedUsage 40 true = 40
    ∧ calculateExpectedUsage 90 false = 70 := by
  refine ⟨?_, ?_, ?_⟩
  · intro u night
    unfold calculateExpectedUsage hardPeakLimit
    rcases le_or_lt (if night then (u : ℚ) else (u : ℚ) * (8 / 10)) 70 with h | h
    · rw [if_neg (not_lt.mpr h), min_eq_left h]
    · rw [if_pos h, min_eq_right h.le]
  · norm_num [calculateExpectedUsage, hardPeakLimit]
  · norm_num [calculateExpectedUsage, hardPeakLimit]

/-- C7 counterexample: an increase step from intensity 10000 yields 10009,
not the claimed 10010 — the binary64 value nearest `1.001` is
`4508103226997866 / 2^52`, slightly below `1.001`, and the rounded product
`float64(10000) * 1.001` is `10010 − 2⁻³⁹`, which truncates to 10009. -/
theorem increase_step_from_10000_is_not_10010 :
    (AdjustCountRandom true 10000).2.2 = 10009
    ∧ (AdjustCountRandom true 10000).2.2 ≠ 10010 := by
  rw [step_true_10000]
  exact ⟨rfl, by decide⟩

/-- C7 (amended): `AdjustCountRandom` multiplies the current intensity by
the binary64 value nearest `1.001` when increasing and nearest `0.999` when
decreasing — the `float64` product rounded to nearest — truncating to an
unsigned integer and clamping to a floor of 1 on the decrease side; in
particular, from intensity 10000 an increase step yields exactly 10009, and
from intensity 1 a decrease step yields exactly 1. -/
theorem adjustCountRandom_float_step_spec :
    (∀ c : ℕ, (AdjustCountRandom true c).2.2
      = ⌊roundF (roundF (c : ℚ) * roundF (1001 / 1000))⌋₊)
    ∧ (∀ c : ℕ, (AdjustCountRandom false c).2.2
      = max 1 ⌊roundF (roundF (c : ℚ) * roundF (999 / 1000))⌋₊)
    ∧ (∀ c : ℕ, 1 ≤ (AdjustCountRandom false c).2.2)
    ∧ (AdjustCountRandom true 10000).2.2 = 10009
    ∧ (AdjustCountRandom false 1).2.2 = 1 := by
  refine ⟨fun c => rfl, fun c => rfl, fun c => ?_, step_true_10000, step_false_one⟩
  unfold AdjustCountRandom
  simp only [Bool.false_eq_true, if_false]
  exact le_max_left 1 _

/-- C8: the controller's probability tables coincide with the spec's step
functions: `calculateAdjustProbability` with the spec's adjust-or-skip
table on the magnitude, and `calculateDirectionProbability` with the spec's
direction table on the signed difference (for every value of the unused
`expectedUsage` argument). -/
theorem probability_tables_match_spec :
    (∀ m : ℚ, calculateAdjustProbability m = specAdjustProbability m)
    ∧ (∀ d e : ℚ, calculateDirectionProbability d e = specDirectionProbability d) := by
  constructor
  · intro m
    unfold calculateAdjustProbability specAdjustProbability
    by_cases h1 : 5 < m
    · rw [if_pos h1, if_pos h1]
    · have h5 : m ≤ 5 := not_lt.mp h1
      by_cases h2 : 2 ≤ m
      · rw [if_neg h1, if_pos h2, if_neg h1, if_pos ⟨h2, h5⟩]
      · rw [if_neg h1, if_neg h2, if_neg h1, if_neg (by tauto)]
  · intro d e
    unfold calculateDirectionProbability specDirectionProbability
    rw [fabs_eq_abs]

/-- C9: `getPeakUsage` returns the default 40 for a missing or unparsable
value and for an integer outside `[1, 100]`, raises integers in `[1, 5)` to
the floor 5, returns integers in `[5, 100]` unchanged, and its result always
lies in `[5, 100]`. -/
theorem getPeakUsage_spec (n : ℤ) :
    getPeakUsage none = 40
    ∧ ((n < 1 ∨ 100 < n) → getPeakUsage (some n) = 40)
    ∧ (1 ≤ n → n < 5 → getPeakUsage (some n) = 5)
    ∧ (5 ≤ n → n ≤ 100 → getPeakUsage (some n) = n)
    ∧ (5 ≤ getPeakUsage (some n) ∧ getPeakUsage (some n) ≤ 100)
    ∧ (5 ≤ getPeakUsage none ∧ getPeakUsage none ≤ 100) := by
  simp only [getPeakUsage, defaultPeakUsage, minPeakUsage]
  refine ⟨by trivial, ?_, ?_, ?_, ?_, by norm_num⟩
  · intro h
    rw [if_pos h]
  · intro h1 h2
    rw [if_neg (by omega), if_pos (by omega)]
  · intro h1 h2
    rw [if_neg (by omega), if_neg (by omega)]
  · split_ifs <;> omega

/-- C9 witness: the parsed value 3 is raised to the floor 5 and the parsed
value 101 falls back to the default 40. -/
theorem getPeakUsage_spec_witness :
    getPeakUsage (some 3) = 5 ∧ getPeakUsage (some 101) = 40 :=
  ⟨(getPeakUsage_spec 3).2.2.1 (by norm_num) (by norm_num),
   (getPeakUsage_spec 101).2.1 (Or.inr (by norm_num))⟩

lemma one_le_countStep (c : ℕ) (d : Bool) (hc : 1 ≤ c) : 1 ≤ countStep c d := by
  cases d
  · unfold countStep AdjustCountRandom
    simp only [Bool.false_eq_true, if_false]
    exact le_max_left 1 _
  · unfold countStep AdjustCountRandom
    simp only [if_true]
    have h1 : (1 : ℚ) ≤ roundF (c : ℚ) :=
      one_le_roundF _ (by exact_mod_cast hc)
    have h2 : (1 : ℚ) ≤ roundF (1001 / 1000) := one_le_roundF _ (by norm_num)
    have h3 : (1 : ℚ) ≤ roundF (c : ℚ) * roundF (1001 / 1000) := by nlinarith
    have h4 : (1 : ℚ) ≤ roundF (roundF (c : ℚ) * roundF (1001 / 1000)) :=
      one_le_roundF _ h3
    exact Nat.le_floor (by exact_mod_cast h4)

lemma one_le_runCounts (dirs : List Bool) (c : ℕ) (hc : 1 ≤ c) :
    1 ≤ runCounts c dirs := by
  induction dirs generalizing c with
  | nil => exact hc
  | cons d ds ih => exact ih (countStep c d) (one_le_countStep c d hc)

/-- C3: starting from the initial intensity 10000, after every finite
sequence of `AdjustCountRandom` calls in any mix of directions the stored
intensity — which is also the value each call returns — is at least 1.
(The statement quantifies over every sequence, so it covers the state after
every individual call of any longer run.) -/
theorem intensity_never_below_one (dirs : List Bool) :
    1 ≤ runCounts initCount dirs
    ∧ ∀ d : Bool,
        (AdjustCountRandom d (runCounts initCount dirs)).2.2
          = runCounts initCount (dirs ++ [d]) := by
  refine ⟨one_le_runCounts dirs initCount (by norm_num [initCount]), ?_⟩
  intro d
  simp [runCounts, List.foldl_append, countStep]

/-! ## Memory balloon invariant lemmas -/

lemma memStep_totalMemory (mc : MemoryController) (d : Bool) :
    (memStep mc d).totalMemory = mc.totalMemory := by
  unfold memStep AdjustMemoryRandom adjustTo allocateMemory releaseMemory
  dsimp only
  split_ifs <;> rfl

lemma memStep_buffer_le (mc : MemoryController) (d : Bool) :
    (memStep mc d).buffer
      ≤ mc.buffer
        + (if d then (mc.totalMemory / 1000 + blockSize - 1) / blockSize else 0) := by
  unfold memStep AdjustMemoryRandom adjustTo allocateMemory releaseMemory
    getCurrentProgramMemory blockSize
  cases d <;>
    simp only [Bool.false_eq_true, if_false, if_true] <;>
    split_ifs <;> (try dsimp only) <;> omega

lemma runMemory_buffer_le (dirs : List Bool) (mc : MemoryController) :
    (runMemory mc dirs).buffer
      ≤ mc.buffer
        + dirs.count true * ((mc.totalMemory / 1000 + blockSize - 1) / blockSize) := by
  induction dirs generalizing mc with
  | nil => simp [runMemory]
  | cons d ds ih =>
    have hrun : runMemory mc (d :: ds) = runMemory (memStep mc d) ds := rfl
    have hih := ih (memStep mc d)
    rw [hrun]
    rw [memStep_totalMemory mc d] at hih
    have hstep := memStep_buffer_le mc d
    cases d
    · simp only [Bool.false_eq_true, if_false] at hstep
      have hcount : (false :: ds).count true = ds.count true := by simp
      rw [hcount]
      omega
    · have hcount : (true :: ds).count true = ds.count true + 1 := by simp
      rw [hcount]
      have : (ds.count true + 1) * ((mc.totalMemory / 1000 + blockSize - 1) / blockSize)
          = ds.count true * ((mc.totalMemory / 1000 + blockSize - 1) / blockSize)
            + (mc.totalMemory / 1000 + blockSize - 1) / blockSize := by ring
      rw [this]
      simp only [if_true] at hstep
      omega

/-- C4 counterexample: with total memory 1,000,000 bytes a single increase
step requests 1,000 bytes but allocates a whole 1 MiB block, so the balloon
(1,048,576 bytes) exceeds the cumulative requested bytes (1,000) — the
claim's bound fails because allocation rounds each request up to a block
boundary. -/
theorem balloon_exceeds_requested_bytes :
    GetCurrentMemory (runMemory ⟨0, 1000000⟩ [true]) = 1048576
    ∧ List.count true [true] * (1000000 / 1000) = 1000
    ∧ ¬ GetCurrentMemory (runMemory ⟨0, 1000000⟩ [true])
        ≤ List.count true [true] * (1000000 / 1000) := by
  decide

/-- C4 (amended): for every total memory and every finite sequence of
`AdjustMemoryRandom` calls starting from an empty balloon, the balloon size
is an exact non-negative multiple of the 1 MiB block size and never exceeds
the cumulative bytes requested by the increase steps performed so far with
each request rounded up to a whole number of blocks. (Quantifying over every
sequence covers every intermediate point of any longer run.) -/
theorem balloon_block_multiple_and_bounded (total : ℕ) (dirs : List Bool) :
    GetCurrentMemory (runMemory ⟨0, total⟩ dirs) % blockSize = 0
    ∧ GetCurrentMemory (runMemory ⟨0, total⟩ dirs)
      ≤ dirs.count true * ((total / 1000 + blockSize - 1) / blockSize * blockSize) := by
  constructor
  · exact Nat.mul_mod_left _ _
  · have h := runMemory_buffer_le dirs ⟨0, total⟩
    simp only [GetCurrentMemory, getCurrentProgramMemory]
    calc (runMemory ⟨0, total⟩ dirs).buffer * blockSize
        ≤ (0 + dirs.count true * ((total / 1000 + blockSize - 1) / blockSize))
            * blockSize := Nat.mul_le_mul_right blockSize h
    _ = dirs.count true * ((total / 1000 + blockSize - 1) / blockSize * blockSize) := by
        ring

/-- C5 counterexample: `updatePeakUsage` contains no clamp at the hard
safety ceiling — with origin ceiling 100 and random draw 0.99 the new
current ceiling is 99, which exceeds 70. -/
theorem drift_can_exceed_hard_limit :
    updatePeakUsage 100 (99 / 100) = 99
    ∧ ¬ updatePeakUsage 100 (99 / 100) ≤ 70 := by
  have h : updatePeakUsage 100 (99 / 100) = 99 := by
    unfold updatePeakUsage qtrunc minPeakUsage
    norm_num
  exact ⟨h, by rw [h]; norm_num⟩

/-- C5 (amended): for every origin ceiling in `[5, 100]` and every random
draw in `[0, 1)`, one `updatePeakUsage` call sets the current ceiling to the
truncation of a uniform sample from `[0.2 × origin, origin)` clamped below
at the minimum usage 5; the result is at least 5 and never exceeds the
origin ceiling (but it is not clamped at the hard safety ceiling 70). -/
lemma qtrunc_of_nonneg (x : ℚ) (hx : 0 ≤ x) : qtrunc x = ⌊x⌋ := by
  unfold qtrunc
  rw [if_neg (not_lt.mpr hx)]

theorem updatePeakUsage_spec (o : ℤ) (r : ℚ) (ho1 : 5 ≤ o) (ho2 : o ≤ 100)
    (hr1 : 0 ≤ r) (hr2 : r < 1) :
    updatePeakUsage o r
      = max minPeakUsage ⌊(o : ℚ) * (2 / 10) + r * ((o : ℚ) - (o : ℚ) * (2 / 10))⌋
    ∧ minPeakUsage ≤ updatePeakUsage o r
    ∧ updatePeakUsage o r ≤ o := by
  have hoQ : (5 : ℚ) ≤ (o : ℚ) := by exact_mod_cast ho1
  have hm0 : (0 : ℚ) ≤ (o : ℚ) * (2 / 10) := by linarith
  have homle : (o : ℚ) * (2 / 10) ≤ (o : ℚ) := by linarith
  have hrw : (0 : ℚ) ≤ r * ((o : ℚ) - (o : ℚ) * (2 / 10)) :=
    mul_nonneg hr1 (sub_nonneg.mpr homle)
  have hnvge : (o : ℚ) * (2 / 10)
      ≤ (o : ℚ) * (2 / 10) + r * ((o : ℚ) - (o : ℚ) * (2 / 10)) := by linarith
  have hnv0 : (0 : ℚ) ≤ (o : ℚ) * (2 / 10) + r * ((o : ℚ) - (o : ℚ) * (2 / 10)) :=
    le_trans hm0 hnvge
  have hpos : (0 : ℚ) < (o : ℚ) - (o : ℚ) * (2 / 10) := by linarith
  have hlt1 : r * ((o : ℚ) - (o : ℚ) * (2 / 10))
      < 1 * ((o : ℚ) - (o : ℚ) * (2 / 10)) := mul_lt_mul_of_pos_right hr2 hpos
  have hnvlt : (o : ℚ) * (2 / 10) + r * ((o : ℚ) - (o : ℚ) * (2 / 10)) < (o : ℚ) := by
    linarith
  have hq1 : qtrunc ((o : ℚ) * (2 / 10) + r * ((o : ℚ) - (o : ℚ) * (2 / 10)))
      = ⌊(o : ℚ) * (2 / 10) + r * ((o : ℚ) - (o : ℚ) * (2 / 10))⌋ :=
    qtrunc_of_nonneg _ hnv0
  have hq2 : qtrunc ((o : ℚ) * (2 / 10)) = ⌊(o : ℚ) * (2 / 10)⌋ :=
    qtrunc_of_nonneg _ hm0
  have hfl : ⌊(o : ℚ) * (2 / 10)⌋
      ≤ ⌊(o : ℚ) * (2 / 10) + r * ((o : ℚ) - (o : ℚ) * (2 / 10))⌋ :=
    Int.floor_mono hnvge
  have hfo : ⌊(o : ℚ) * (2 / 10) + r * ((o : ℚ) - (o : ℚ) * (2 / 10))⌋ < o :=
    Int.floor_lt.mpr hnvlt
  have hred : updatePeakUsage o r
      = if (if qtrunc ((o : ℚ) * (2 / 10) + r * ((o : ℚ) - (o : ℚ) * (2 / 10)))
              < qtrunc ((o : ℚ) * (2 / 10))
            then qtrunc ((o : ℚ) * (2 / 10))
            else qtrunc ((o : ℚ) * (2 / 10) + r * ((o : ℚ) - (o : ℚ) * (2 / 10))))
            < minPeakUsage
        then minPeakUsage
        else if qtrunc ((o : ℚ) * (2 / 10) + r * ((o : ℚ) - (o : ℚ) * (2 / 10)))
              < qtrunc ((o : ℚ) * (2 / 10))
            then qtrunc ((o : ℚ) * (2 / 10))
            else qtrunc ((o : ℚ) * (2 / 10) + r * ((o : ℚ) - (o : ℚ) * (2 / 10))) := rfl
  rw [hred, hq1, hq2, if_neg (not_lt.mpr hfl)]
  unfold minPeakUsage
  by_cases hc : ⌊(o : ℚ) * (2 / 10) + r * ((o : ℚ) - (o : ℚ) * (2 / 10))⌋ < 5
  · rw [if_pos hc]
    exact ⟨(max_eq_left hc.le).symm, le_refl 5, ho1⟩
  · rw [if_neg hc]
    exact ⟨(max_eq_right (not_lt.mp hc)).symm, not_lt.mp hc, hfo.le⟩

/-- C5 (amended) witness: origin ceiling 40 with draw 0.5 satisfies the
hypotheses and yields a ceiling of `max 5 ⌊24⌋ = 24`, within `[5, 40]`. -/
theorem updatePeakUsage_spec_witness :
    updatePeakUsage 40 (1 / 2)
      = max minPeakUsage
          ⌊((40 : ℤ) : ℚ) * (2 / 10)
            + (1 / 2) * (((40 : ℤ) : ℚ) - ((40 : ℤ) : ℚ) * (2 / 10))⌋
    ∧ minPeakUsage ≤ updatePeakUsage 40 (1 / 2)
    ∧ updatePeakUsage 40 (1 / 2) ≤ 40 :=
  updatePeakUsage_spec 40 (1 / 2) (by norm_num) (by norm_num) (by norm_num)
    (by norm_num)

/-- C6 counterexample: with total memory 10 GiB (10,737,418,240 bytes) and
the balloon empty, one increase step requests `10737418240 / 1000 =
10737418` bytes (not 10 MiB), which rounds up to 11 blocks, so
`GetCurrentMemory` reports 11,534,336 — not the claimed 10 blocks /
10,485,760 bytes. -/
theorem balloon_first_step_not_ten_blocks :
    GetCurrentMemory (AdjustMemoryRandom ⟨0, 10 * 1024 * 1024 * 1024⟩ true).2 = 11534336
    ∧ GetCurrentMemory (AdjustMemoryRandom ⟨0, 10 * 1024 * 1024 * 1024⟩ true).2 ≠ 10485760
    ∧ (AdjustMemoryRandom ⟨0, 10 * 1024 * 1024 * 1024⟩ true).2.buffer ≠ 10 := by
  decide

/-- C6 (amended): with total memory 10 GiB and the balloon empty, a single
`AdjustMemoryRandom(true)` call requests `10737418240 / 1000 = 10737418`
bytes (0.1 % of total, integer-truncated), appends 11 whole 1 MiB blocks,
and returns with `GetCurrentMemory` reporting exactly 11,534,336 bytes. -/
theorem balloon_first_step_ten_gib :
    (10 * 1024 * 1024 * 1024 : ℕ) / 1000 = 10737418
    ∧ (AdjustMemoryRandom ⟨0, 10 * 1024 * 1024 * 1024⟩ true).1 = (true, true, 11534336)
    ∧ (AdjustMemoryRandom ⟨0, 10 * 1024 * 1024 * 1024⟩ true).2.buffer = 11
    ∧ GetCurrentMemory (AdjustMemoryRandom ⟨0, 10 * 1024 * 1024 * 1024⟩ true).2
        = 11534336 := by
  decide

end CpuMemBusy
